import Mathlib

/-!
Verification development for the seneca pipeline-event subsystem.

The definitions below are a shallow embedding of
`src/processors/shared_pipeline_events.py` (the shared event store),
`src/processors/pipeline_replay.py` (the replay controller) and
`src/processors/conversation_stream.py` (the log tailer).

Python JSON values are modelled by the inductive type `JVal`
(JSON numbers are modelled as integers; the claims treated here do not
depend on non-integral numbers).  Python `dict`s (which preserve
insertion order, update keys in place and append new keys at the end)
are modelled as association lists with the operations `aset` / `aget` /
`amem` / `amodify` below.  Wall-clock time (`datetime.now()`) is passed
as an explicit argument wherever the Python code consults it.
-/

namespace Seneca

/-- JSON-like values as produced by `json.load`/`json.loads`. -/
inductive JVal where
  | null : JVal
  | bool (b : Bool) : JVal
  | str (s : String) : JVal
  | num (n : Int) : JVal
  | arr (xs : List JVal) : JVal
  | obj (fields : List (String × JVal)) : JVal

mutual

/-- Decidable equality on `JVal` (the `deriving` handler does not support
this nested inductive, so it is spelled out). -/
def JVal.decEq : (a b : JVal) → Decidable (a = b)
  | .null, .null => .isTrue rfl
  | .bool a, .bool b =>
      if h : a = b then .isTrue (by rw [h])
      else .isFalse (by intro hc; cases hc; exact h rfl)
  | .str a, .str b =>
      if h : a = b then .isTrue (by rw [h])
      else .isFalse (by intro hc; cases hc; exact h rfl)
  | .num a, .num b =>
      if h : a = b then .isTrue (by rw [h])
      else .isFalse (by intro hc; cases hc; exact h rfl)
  | .arr xs, .arr ys =>
      match JVal.decEqList xs ys with
      | .isTrue h => .isTrue (by rw [h])
      | .isFalse h => .isFalse (by intro hc; cases hc; exact h rfl)
  | .obj xs, .obj ys =>
      match JVal.decEqFields xs ys with
      | .isTrue h => .isTrue (by rw [h])
      | .isFalse h => .isFalse (by intro hc; cases hc; exact h rfl)
  | .null, .bool _ => .isFalse (fun h => nomatch h)
  | .null, .str _ => .isFalse (fun h => nomatch h)
  | .null, .num _ => .isFalse (fun h => nomatch h)
  | .null, .arr _ => .isFalse (fun h => nomatch h)
  | .null, .obj _ => .isFalse (fun h => nomatch h)
  | .bool _, .null => .isFalse (fun h => nomatch h)
  | .bool _, .str _ => .isFalse (fun h => nomatch h)
  | .bool _, .num _ => .isFalse (fun h => nomatch h)
  | .bool _, .arr _ => .isFalse (fun h => nomatch h)
  | .bool _, .obj _ => .isFalse (fun h => nomatch h)
  | .str _, .null => .isFalse (fun h => nomatch h)
  | .str _, .bool _ => .isFalse (fun h => nomatch h)
  | .str _, .num _ => .isFalse (fun h => nomatch h)
  | .str _, .arr _ => .isFalse (fun h => nomatch h)
  | .str _, .obj _ => .isFalse (fun h => nomatch h)
  | .num _, .null => .isFalse (fun h => nomatch h)
  | .num _, .bool _ => .isFalse (fun h => nomatch h)
  | .num _, .str _ => .isFalse (fun h => nomatch h)
  | .num _, .arr _ => .isFalse (fun h => nomatch h)
  | .num _, .obj _ => .isFalse (fun h => nomatch h)
  | .arr _, .null => .isFalse (fun h => nomatch h)
  | .arr _, .bool _ => .isFalse (fun h => nomatch h)
  | .arr _, .str _ => .isFalse (fun h => nomatch h)
  | .arr _, .num _ => .isFalse (fun h => nomatch h)
  | .arr _, .obj _ => .isFalse (fun h => nomatch h)
  | .obj _, .null => .isFalse (fun h => nomatch h)
  | .obj _, .bool _ => .isFalse (fun h => nomatch h)
  | .obj _, .str _ => .isFalse (fun h => nomatch h)
  | .obj _, .num _ => .isFalse (fun h => nomatch h)
  | .obj _, .arr _ => .isFalse (fun h => nomatch h)

/-- Decidable equality on lists of `JVal`. -/
def JVal.decEqList : (xs ys : List JVal) → Decidable (xs = ys)
  | [], [] => .isTrue rfl
  | [], _ :: _ => .isFalse (fun h => nomatch h)
  | _ :: _, [] => .isFalse (fun h => nomatch h)
  | x :: xs, y :: ys =>
      match JVal.decEq x y with
      | .isFalse h => .isFalse (by intro hc; cases hc; exact h rfl)
      | .isTrue h1 =>
          match JVal.decEqList xs ys with
          | .isTrue h2 => .isTrue (by rw [h1, h2])
          | .isFalse h => .isFalse (by intro hc; cases hc; exact h rfl)

/-- Decidable equality on key/value field lists of `JVal`. -/
def JVal.decEqFields : (xs ys : List (String × JVal)) → Decidable (xs = ys)
  | [], [] => .isTrue rfl
  | [], _ :: _ => .isFalse (fun h => nomatch h)
  | _ :: _, [] => .isFalse (fun h => nomatch h)
  | (k, v) :: xs, (k', v') :: ys =>
      if hk : k = k' then
        match JVal.decEq v v' with
        | .isFalse h => .isFalse (by intro hc; cases hc; exact h rfl)
        | .isTrue hv =>
            match JVal.decEqFields xs ys with
            | .isTrue ht => .isTrue (by rw [hk, hv, ht])
            | .isFalse h => .isFalse (by intro hc; cases hc; exact h rfl)
      else .isFalse (by intro hc; cases hc; exact hk rfl)

end

instance : DecidableEq JVal := JVal.decEq

/-- A decoded JSON object: a Python `dict` with string keys, kept in
insertion order exactly as CPython does. -/
abbrev JObj := List (String × JVal)

/-- Python `d[k] = v`: update in place if `k` is present, else append. -/
def aset {β : Type} : List (String × β) → String → β → List (String × β)
  | [], k, v => [(k, v)]
  | (k', v') :: rest, k, v =>
      if k' = k then (k, v) :: rest else (k', v') :: aset rest k v

/-- Python `d.get(k)` / `d[k]`. -/
def aget {β : Type} : List (String × β) → String → Option β
  | [], _ => none
  | (k', v') :: rest, k => if k' = k then some v' else aget rest k

/-- Python `k in d`. -/
def amem {β : Type} (d : List (String × β)) (k : String) : Bool :=
  (aget d k).isSome

/-- Apply `f` to the value stored under `k` (models `d[k].field = ...`
style in-place mutation of a nested dict; a no-op when `k` is absent,
which never happens at the call sites, all of which are guarded by a
membership test). -/
def amodify {β : Type} (d : List (String × β)) (k : String) (f : β → β) :
    List (String × β) :=
  d.map fun kv => if kv.1 = k then (kv.1, f kv.2) else kv

/-- Python `{**a, **b}`: entries of `a` in order, then entries of `b`
merged in, overriding in place. -/
def amerge (a b : JObj) : JObj :=
  b.foldl (fun acc kv => aset acc kv.1 kv.2) a

/-! ## The shared event store (`SharedPipelineEvents`)

The on-disk document has shape `{"flows": {flow_id: {...}}, "events": [...]}`.
Each operation is `_read_events`, an in-memory mutation, `_write_events`;
here the document is the explicit state `PData` and each operation is the
in-memory mutation, applied to the document it read. -/

/-- The full `{"flows": ..., "events": ...}` document. -/
structure PData where
  flows : List (String × JObj)
  events : List JObj
deriving DecidableEq

/-- The initial document written when the backing file does not exist,
and the fail-open document used when it is missing or unparseable. -/
def emptyData : PData := { flows := [], events := [] }

/-- The fresh flow record built by `SharedPipelineEvents.add_flow`. -/
def freshFlowRec (flow_id project_name now : String) : JObj :=
  [("id", JVal.str flow_id),
   ("project_name", JVal.str project_name),
   ("started_at", JVal.str now),
   ("completed_at", JVal.null),
   ("is_active", JVal.bool true)]

/-- Source `SharedPipelineEvents.add_flow`: unconditionally assigns
`data["flows"][flow_id]` a fresh active record. -/
def add_flow (d : PData) (flow_id project_name now : String) : PData :=
  { d with flows := aset d.flows flow_id (freshFlowRec flow_id project_name now) }

/-- Count of events already stored for `flow_id`
(`len([e for e in data['events'] if e.get('flow_id') == flow_id])`). -/
def countFlowEvents (events : List JObj) (flow_id : String) : Nat :=
  (events.filter fun e => aget e "flow_id" == some (JVal.str flow_id)).length

/-- The `event_data` dict built inside `SharedPipelineEvents.add_event`:
`{"flow_id": flow_id, "timestamp": now, **event}` plus, when the result
still lacks an `event_id` key, `event_id = f"{flow_id}_{n}"` with `n`
the number of events already stored for the flow. -/
def mkEventData (d : PData) (flow_id : String) (event : JObj) (now : String) : JObj :=
  let ed := amerge [("flow_id", JVal.str flow_id), ("timestamp", JVal.str now)] event
  if amem ed "event_id" then ed
  else aset ed "event_id"
    (JVal.str (flow_id ++ "_" ++ toString (countFlowEvents d.events flow_id)))

/-- Source `SharedPipelineEvents.add_event`: silently returns when the flow is
unknown; otherwise appends the event (no completion check of any kind)
and, when the caller's payload has a `stage` key, updates the flow's
`current_stage`. -/
def add_event (d : PData) (flow_id : String) (event : JObj) (now : String) : PData :=
  if amem d.flows flow_id then
    let ed := mkEventData d flow_id event now
    let d' : PData := { d with events := d.events ++ [ed] }
    match aget event "stage" with
    | some stageVal =>
        { d' with flows := amodify d'.flows flow_id (fun r => aset r "current_stage" stageVal) }
    | none => d'
  else d

/-- The two field assignments `complete_flow` performs on a flow record:
`completed_at = now` then `is_active = False`. -/
def closeRec (now : String) (r : JObj) : JObj :=
  aset (aset r "completed_at" (JVal.str now)) "is_active" (JVal.bool false)

/-- Source `SharedPipelineEvents.complete_flow`: when the flow exists, sets
`completed_at` to the current time and `is_active` to `False`. -/
def complete_flow (d : PData) (flow_id now : String) : PData :=
  if amem d.flows flow_id then
    { d with flows := amodify d.flows flow_id (closeRec now) }
  else d

/-- Source `SharedPipelineEvents.get_flow_events`: all stored events whose
`flow_id` field equals the requested id, in storage order. -/
def get_flow_events (d : PData) (flow_id : String) : List JObj :=
  d.events.filter fun e => aget e "flow_id" == some (JVal.str flow_id)

/-- A sequence of `add_event` calls on one flow, applied in order
(each call reads the document the previous call wrote). -/
def appendAll (d : PData) (fid : String) : List (JObj × String) → PData
  | [] => d
  | (ev, now) :: rest => appendAll (add_event d fid ev now) fid rest

/-- The event dicts that the calls of `appendAll` persist, in call order. -/
def expectedEvents (d : PData) (fid : String) : List (JObj × String) → List JObj
  | [] => []
  | (ev, now) :: rest =>
      mkEventData d fid ev now :: expectedEvents (add_event d fid ev now) fid rest

/-! ### Concrete store scenarios used by the claim theorems -/

/-- A store holding one freshly created flow `f`. -/
def flowF : PData := add_flow emptyData "f" "proj" "t0"

/-- The store after `complete_flow` on flow `f`. -/
def flowFClosed : PData := complete_flow flowF "f" "t1"

/-- Two event payloads appended to flow `f` in order. -/
def twoAppends : List (JObj × String) :=
  [([("event_type", JVal.str "first")], "ta"),
   ([("event_type", JVal.str "second")], "tb")]

/-! ## Cross-process interleavings of `add_event`

`add_event` is `_read_events()` (the advisory lock is held only while
reading), an in-memory mutation of the document just read, then
`_write_events(data)` (the lock is held only while writing).  No lock is
held between the read and the write, so the actions of two OS processes
can interleave there.  One `add_event` call by one process is therefore
two atomic actions: a `read` (read the file, compute the whole mutated
document) and a `write` (write that document back, replacing whatever
the file holds by then). -/

/-- One process's state: how many `add_event` calls remain, and the
fully mutated document it has computed but not yet written back. -/
structure Proc where
  remaining : Nat
  pending : Option PData
deriving DecidableEq

/-- The shared backing file plus the two processes. -/
structure Machine where
  file : PData
  pa : Proc
  pb : Proc
deriving DecidableEq

/-- The payload process A appends on each call. -/
def evA : JObj := [("event_type", JVal.str "work_a")]

/-- The payload process B appends on each call. -/
def evB : JObj := [("event_type", JVal.str "work_b")]

/-- One atomic action of one process on flow `f`: with a pending document,
write it back (the exclusively-locked `_write_events`); otherwise, if
calls remain, read the file and compute the mutated document (the
locked `_read_events` plus the in-memory part of `add_event`). -/
def procStep (file : PData) (p : Proc) (ev : JObj) (now : String) : PData × Proc :=
  match p.pending with
  | some doc => (doc, { p with pending := none })
  | none =>
      match p.remaining with
      | 0 => (file, p)
      | n + 1 => (file, { remaining := n, pending := some (add_event file "f" ev now) })

/-- Scheduler step: `true` runs one action of process A, `false` one of B. -/
def machineStep (m : Machine) (who : Bool) : Machine :=
  if who then
    let fp := procStep m.file m.pa evA "tA"
    { m with file := fp.1, pa := fp.2 }
  else
    let fp := procStep m.file m.pb evB "tB"
    { m with file := fp.1, pb := fp.2 }

/-- Run a whole schedule (a choice of interleaving). -/
def runSched (m : Machine) (sched : List Bool) : Machine :=
  sched.foldl machineStep m

/-- Flow `f` created; both processes poised to perform 100 `add_event`
calls each. -/
def machine0 : Machine :=
  { file := flowF,
    pa := { remaining := 100, pending := none },
    pb := { remaining := 100, pending := none } }

/-- The fully sequential interleaving: each call's read is immediately
followed by its write; A's 100 calls, then B's 100 calls. -/
def seqSched : List Bool := List.replicate 200 true ++ List.replicate 200 false

/-- An interleaving whose first two calls overlap — A reads, B reads,
A writes, B writes — after which the remaining 99 calls of each process
run sequentially. -/
def lostUpdateSched : List Bool :=
  [true, false, true, false] ++ List.replicate 198 true ++ List.replicate 198 false

/-- Runs `n` back-to-back `add_event` calls on flow `f`. -/
def iterAppend (ev : JObj) (now : String) : Nat → PData → PData
  | 0, d => d
  | n + 1, d => iterAppend ev now n (add_event d "f" ev now)

/-! ## Replay controller (`PipelineReplayController`) -/

/-- Lexicographic (code-point) order on character lists: the comparison
Python's `sorted` applies to timestamp strings. -/
def charsLe : List Char → List Char → Bool
  | [], _ => true
  | _ :: _, [] => false
  | a :: as, b :: bs => if a = b then charsLe as bs else decide (a < b)

/-- Python's `<=` on strings (lexicographic by code point), in an
executable form. -/
def strLe (a b : String) : Bool := charsLe a.toList b.toList

/-- The sort key `e.get('timestamp', '')` used by `_load_flow_events`:
the timestamp string, `""` when the key is missing.  (All timestamps the
store writes are strings; on a non-string value Python's `sorted` would
raise `TypeError`, so such values are outside this model, which keys
them as `""` too.) -/
def tsKey (e : JObj) : String :=
  match aget e "timestamp" with
  | some (JVal.str s) => s
  | _ => ""

/-- The comparison `_load_flow_events` sorts by. -/
def tsLe (e e' : JObj) : Bool := strLe (tsKey e) (tsKey e')

/-- Source `PipelineReplayController._load_flow_events`: the flow's stored
events, stably sorted by timestamp string (CPython's `sorted` is a
stable mergesort, as is `List.mergeSort`). -/
def loadFlowEvents (d : PData) (fid : String) : List JObj :=
  (get_flow_events d fid).mergeSort tsLe

/-- A replay session: the fields of `PipelineReplayController` that
navigation reads and writes.  Positions are integers exactly as in
Python (so `max_position - 1` may be `-1` on an empty flow). -/
structure Replay where
  flow_id : String
  events : List JObj
  current_position : Int
  max_position : Int
deriving DecidableEq

/-- Source `PipelineReplayController.__init__(flow_id)`: load the snapshot once
and start at position 0 with `max_position = len(self.events)`. -/
def mkReplay (d : PData) (fid : String) : Replay :=
  { flow_id := fid, events := loadFlowEvents d fid, current_position := 0,
    max_position := ((loadFlowEvents d fid).length : Int) }

/-- Source `get_current_event`: the event under the cursor, `None` out of range. -/
def get_current_event (r : Replay) : Option JObj :=
  if 0 ≤ r.current_position ∧ r.current_position < (r.events.length : Int) then
    r.events.get? r.current_position.toNat
  else none

/-- Source `step_forward`: advance if strictly before `max_position - 1`,
reporting success; otherwise report failure and stay. -/
def step_forward (r : Replay) : Bool × Replay :=
  if r.current_position < r.max_position - 1 then
    (true, { r with current_position := r.current_position + 1 })
  else (false, r)

/-- Source `step_back`: move back if strictly after 0, reporting success;
otherwise report failure and stay. -/
def step_back (r : Replay) : Bool × Replay :=
  if r.current_position > 0 then
    (true, { r with current_position := r.current_position - 1 })
  else (false, r)

/-- Source `seek_to(position)`: jump when `0 <= position < max_position`,
reporting success; otherwise report failure and stay. -/
def seek_to (r : Replay) (position : Int) : Bool × Replay :=
  if 0 ≤ position ∧ position < r.max_position then
    (true, { r with current_position := position })
  else (false, r)

/-- The key event types of `find_key_events`, in the order the Python
dict comprehension creates them. -/
def keyEventTypes : List String :=
  ["decision_point", "ai_prd_analysis", "tasks_generated",
   "quality_metrics", "performance_metrics"]

/-- Source `find_key_events`: start from `{t: [] for t in key_event_types}` and
append each position whose event's `event_type` is one of the keys. -/
def find_key_events (r : Replay) : List (String × List Nat) :=
  r.events.enum.foldl
    (fun acc ie =>
      match aget ie.2 "event_type" with
      | some (JVal.str t) =>
          if amem acc t then amodify acc t (fun l => l ++ [ie.1]) else acc
      | _ => acc)
    (keyEventTypes.map fun t => (t, ([] : List Nat)))

/-- Source `find_decision_points`: positions whose event's `event_type` equals
`"decision_point"`. -/
def find_decision_points (r : Replay) : List Nat :=
  (r.events.enum.filter fun ie =>
    aget ie.2 "event_type" == some (JVal.str "decision_point")).map fun ie => ie.1

/-- The three-event flow of the C9 scenario; the store stamps strictly
increasing ISO timestamps. -/
def c9data : PData :=
  add_event (add_event (add_event (add_flow emptyData "f1" "proj" "t0")
    "f1" [("event_type", JVal.str "ai_prd_analysis")] "2024-01-01T00:00:01")
    "f1" [("event_type", JVal.str "tasks_generated")] "2024-01-01T00:00:02")
    "f1" [("event_type", JVal.str "task_created")] "2024-01-01T00:00:03"

/-- The replay session over the C9 flow. -/
def c9replay : Replay := mkReplay c9data "f1"

/-- The two-entry mapping claim C9's wording says `find_key_events`
yields.  This definition follows the claim's words, for comparison with
the code's result. -/
def c9ClaimedMap : List (String × List Nat) :=
  [("ai_prd_analysis", [0]), ("tasks_generated", [1])]

/-! ## Log tailer (`ConversationStreamProcessor`)

The tailer reads a log file line by line, `json.loads` each non-blank
line (decode failures are skipped), and parses the decoded dict into a
`ConversationEvent`.  Here a static file is its list of decoded lines
(`Option JObj`, `none` for a line `json.loads` rejects — the decode
itself is a fixed pure function of the line's text).  `datetime.now()`
is supplied as an explicit stream of values, one per parser invocation. -/

/-- Decimal value of a digit character. -/
def dv (c : Char) : Nat := c.toNat - 48

/-- Modelled library function `datetime.fromisoformat`, on the subdomain
of strings of the exact shape `YYYY-MM-DDTHH:MM:SS`: field-wise decimal
parse with range checks, mapped injectively and order-preservingly to
seconds (`(y*500 + month*31 + day)*86400 + h*3600 + m*60 + s`; same-day
differences are second-exact, which is all the claims use).  Python
accepts further ISO shapes and rejects a few day numbers this model
admits (e.g. `02-30`); no claim's input lies in that gap, and `""` and
non-ISO text are rejected by both. -/
def fromisoformat (s : String) : Option Int :=
  match s.toList with
  | [y1, y2, y3, y4, '-', mo1, mo2, '-', d1, d2, 'T',
     h1, h2, ':', mi1, mi2, ':', s1, s2] =>
      if ([y1, y2, y3, y4, mo1, mo2, d1, d2, h1, h2, mi1, mi2, s1, s2].all
            fun c => c.isDigit) then
        let y := 1000 * dv y1 + 100 * dv y2 + 10 * dv y3 + dv y4
        let mo := 10 * dv mo1 + dv mo2
        let dy := 10 * dv d1 + dv d2
        let h := 10 * dv h1 + dv h2
        let mi := 10 * dv mi1 + dv mi2
        let sec := 10 * dv s1 + dv s2
        if 1 ≤ mo && mo ≤ 12 && 1 ≤ dy && dy ≤ 31 && h ≤ 23 && mi ≤ 59 && sec ≤ 59 then
          some (((y * 500 + mo * 31 + dy) * 86400 + h * 3600 + mi * 60 + sec : Nat) : Int)
        else none
      else none
  | _ => none

mutual

/-- Modelled library function: Python `repr` of a JSON-decoded value
(string escaping omitted — deterministic, and no claim inspects the
text). -/
def pyRepr : JVal → String
  | .null => "None"
  | .bool true => "True"
  | .bool false => "False"
  | .num n => toString n
  | .str s => "\x27" ++ s ++ "\x27"
  | .arr xs => "[" ++ pyReprList xs ++ "]"
  | .obj fs => "\x7b" ++ pyReprFields fs ++ "\x7d"

/-- Python `repr` of list elements, comma-separated. -/
def pyReprList : List JVal → String
  | [] => ""
  | [x] => pyRepr x
  | x :: rest => pyRepr x ++ ", " ++ pyReprList rest

/-- Python `repr` of dict items, comma-separated. -/
def pyReprFields : List (String × JVal) → String
  | [] => ""
  | [(k, v)] => "\x27" ++ k ++ "\x27: " ++ pyRepr v
  | (k, v) :: rest => "\x27" ++ k ++ "\x27: " ++ pyRepr v ++ ", " ++ pyReprFields rest

end

/-- Modelled library function: Python `str` of a JSON-decoded value (as
interpolated by f-strings). -/
def pyStr : JVal → String
  | .str s => s
  | v => pyRepr v

mutual

/-- Modelled library function `json.dumps` (string escaping omitted —
deterministic, and no claim inspects the text). -/
def jsonDumps : JVal → String
  | .null => "null"
  | .bool true => "true"
  | .bool false => "false"
  | .num n => toString n
  | .str s => "\"" ++ s ++ "\""
  | .arr xs => "[" ++ jsonDumpsList xs ++ "]"
  | .obj fs => "\x7b" ++ jsonDumpsFields fs ++ "\x7d"

/-- Python `json.dumps` of array elements. -/
def jsonDumpsList : List JVal → String
  | [] => ""
  | [x] => jsonDumps x
  | x :: rest => jsonDumps x ++ ", " ++ jsonDumpsList rest

/-- Python `json.dumps` of object members. -/
def jsonDumpsFields : List (String × JVal) → String
  | [] => ""
  | [(k, v)] => "\"" ++ k ++ "\": " ++ jsonDumps v
  | (k, v) :: rest => "\"" ++ k ++ "\": " ++ jsonDumps v ++ ", " ++ jsonDumpsFields rest

end

/-- Python truthiness (`if not message:`) of a JSON-decoded value. -/
def isFalsy : JVal → Bool
  | .null => true
  | .bool b => !b
  | .str s => s == ""
  | .num n => n == 0
  | .arr xs => xs.isEmpty
  | .obj fs => fs.isEmpty

/-- Contiguous-sublist test on character lists (Python `in` on strings). -/
def charsInfix (needle : List Char) : List Char → Bool
  | [] => needle.isEmpty
  | c :: rest => needle.isPrefixOf (c :: rest) || charsInfix needle rest

/-- Python `needle in value` for a string needle (substring of a string,
element of a list, key of a dict; on a number/bool/None Python raises
`TypeError` — outside this model, which answers `false` there; no claim
touches that corner). -/
def pyContains (needle : String) : JVal → Bool
  | .str s => charsInfix needle.toList s.toList
  | .arr xs => xs.contains (JVal.str needle)
  | .obj fs => amem fs needle
  | _ => false

/-- Python `data.get(k, dflt)`. -/
def jget (d : JObj) (k : String) (dflt : JVal) : JVal := (aget d k).getD dflt

/-- Python one-argument `data.get(k)`: `None` when absent.  (JSON `null`
and Python `None` coincide as `JVal.null`.) -/
def jget1 (d : JObj) (k : String) : JVal := (aget d k).getD JVal.null

/-- Python `.get` on a value that should be a dict (`event.get("data", {})`
followed by `.get(...)`); a non-dict would raise in Python — outside the
model, which falls back to the default. -/
def dget (v : JVal) (k : String) (dflt : JVal) : JVal :=
  match v with
  | .obj fs => jget fs k dflt
  | _ => dflt

/-- The `ConversationEvent` dataclass.  `timestamp` is the parsed
datetime (seconds, per `fromisoformat`); fields Python types as `str`
but fills from arbitrary decoded JSON are `JVal`; the dataclass defaults
`confidence`/`duration_ms` to `None` (`JVal.null`), and no stream parser
ever sets `duration_ms`. -/
structure ConversationEvent where
  id : String
  timestamp : Int
  source : JVal
  target : JVal
  event_type : JVal
  message : JVal
  metadata : JVal
  confidence : JVal
  duration_ms : JVal
deriving DecidableEq

/-- Source `_parse_simple_event` (new realtime format: the record has a `type`
key and no `event` key).  `counter` is `self._event_counter` after the
increment at the top of `_parse_log_entry`. -/
def parseSimpleEvent (counter : Nat) (data : JObj) (ts : Int) : ConversationEvent :=
  let event_type := jget data "type" (JVal.str "unknown")
  let st :=
    if event_type = JVal.str "ping_request" then
      (jget data "source" (JVal.str "mcp_client"), JVal.str "marcus")
    else if event_type = JVal.str "ping_response" then
      (JVal.str "marcus", JVal.str "mcp_client")
    else
      (jget data "source" (JVal.str "unknown"), jget data "target" (JVal.str "unknown"))
  let message0 := jget data "message" (JVal.str "")
  let message :=
    if isFalsy message0 then
      if event_type = JVal.str "ping_request" then
        JVal.str ("Ping: " ++ pyStr (jget data "echo" (JVal.str "pong")))
      else if event_type = JVal.str "ping_response" then
        JVal.str ("Pong: " ++ pyStr (jget data "echo" (JVal.str "pong"))
          ++ " (Status: " ++ pyStr (jget data "status" (JVal.str "unknown")) ++ ")")
      else
        JVal.str (jsonDumps (JVal.obj (data.filter fun kv =>
          !(kv.1 == "timestamp") && !(kv.1 == "type"))))
    else message0
  { id := "event_" ++ toString counter, timestamp := ts,
    source := st.1, target := st.2, event_type := event_type,
    message := message, metadata := JVal.obj data,
    confidence := JVal.null, duration_ms := JVal.null }

/-- Source `_parse_worker_event`. -/
def parseWorkerEvent (counter : Nat) (data : JObj) (ts : Int) : ConversationEvent :=
  let worker_id := jget data "worker_id" (JVal.str "unknown")
  let conversation_type := jget data "conversation_type" (JVal.str "")
  let st :=
    if pyContains "worker_to_pm" conversation_type then (worker_id, JVal.str "marcus")
    else (JVal.str "marcus", worker_id)
  { id := "event_" ++ toString counter, timestamp := ts,
    source := st.1, target := st.2, event_type := JVal.str "worker_message",
    message := jget data "message" (JVal.str ""),
    metadata := jget data "metadata" (JVal.obj []),
    confidence := JVal.null, duration_ms := JVal.null }

/-- Source `_parse_thinking_event`. -/
def parseThinkingEvent (counter : Nat) (data : JObj) (ts : Int) : ConversationEvent :=
  { id := "event_" ++ toString counter, timestamp := ts,
    source := JVal.str "marcus", target := JVal.str "internal",
    event_type := JVal.str "pm_thinking",
    message := jget data "thought" (JVal.str ""),
    metadata := jget data "context" (JVal.obj []),
    confidence := JVal.null, duration_ms := JVal.null }

/-- Source `_parse_decision_event`. -/
def parseDecisionEvent (counter : Nat) (data : JObj) (ts : Int) : ConversationEvent :=
  { id := "event_" ++ toString counter, timestamp := ts,
    source := JVal.str "marcus", target := JVal.str "decision",
    event_type := JVal.str "pm_decision",
    message := jget data "decision" (JVal.str ""),
    metadata := JVal.obj
      [("rationale", jget data "rationale" (JVal.str "")),
       ("alternatives", jget data "alternatives_considered" (JVal.arr [])),
       ("decision_factors", jget data "decision_factors" (JVal.obj []))],
    confidence := jget1 data "confidence_score", duration_ms := JVal.null }

/-- Source `_parse_kanban_event`. -/
def parseKanbanEvent (counter : Nat) (data : JObj) (ts : Int) : ConversationEvent :=
  let direction := jget data "conversation_type" (JVal.str "")
  let stt :=
    if pyContains "pm_to_kanban" direction then
      (JVal.str "marcus", JVal.str "kanban_board", JVal.str "kanban_request")
    else
      (JVal.str "kanban_board", JVal.str "marcus", JVal.str "kanban_response")
  { id := "event_" ++ toString counter, timestamp := ts,
    source := stt.1, target := stt.2.1, event_type := stt.2.2,
    message := jget data "action" (JVal.str ""),
    metadata := JVal.obj
      [("data", jget data "data" (JVal.obj [])),
       ("processing_steps", jget data "processing_steps" (JVal.arr []))],
    confidence := JVal.null, duration_ms := JVal.null }

/-- Source `_parse_assignment_event`. -/
def parseAssignmentEvent (counter : Nat) (data : JObj) (ts : Int) : ConversationEvent :=
  { id := "event_" ++ toString counter, timestamp := ts,
    source := JVal.str "marcus", target := jget data "worker_id" (JVal.str "unknown"),
    event_type := JVal.str "task_assignment",
    message := JVal.str ("Task " ++ pyStr (jget1 data "task_id") ++ " assigned"),
    metadata := JVal.obj
      [("task_details", jget data "task_details" (JVal.obj [])),
       ("assignment_score", jget1 data "assignment_score"),
       ("dependency_analysis", jget data "dependency_analysis" (JVal.obj []))],
    confidence := JVal.null, duration_ms := JVal.null }

/-- Source `_parse_progress_event`. -/
def parseProgressEvent (counter : Nat) (data : JObj) (ts : Int) : ConversationEvent :=
  { id := "event_" ++ toString counter, timestamp := ts,
    source := jget data "worker_id" (JVal.str "unknown"), target := JVal.str "marcus",
    event_type := JVal.str "progress_update",
    message := JVal.str (pyStr (jget data "progress" (JVal.num 0))
      ++ "% - " ++ pyStr (jget data "message" (JVal.str ""))),
    metadata := JVal.obj
      [("task_id", jget1 data "task_id"),
       ("status", jget1 data "status"),
       ("metrics", jget data "metrics" (JVal.obj []))],
    confidence := JVal.null, duration_ms := JVal.null }

/-- Source `_parse_blocker_event`. -/
def parseBlockerEvent (counter : Nat) (data : JObj) (ts : Int) : ConversationEvent :=
  { id := "event_" ++ toString counter, timestamp := ts,
    source := jget data "worker_id" (JVal.str "unknown"), target := JVal.str "marcus",
    event_type := JVal.str "blocker_report",
    message := jget data "blocker_description" (JVal.str ""),
    metadata := JVal.obj
      [("task_id", jget1 data "task_id"),
       ("severity", jget1 data "severity"),
       ("suggested_solutions", jget data "suggested_solutions" (JVal.arr []))],
    confidence := JVal.null, duration_ms := JVal.null }

/-- Source `_parse_system_state_event`. -/
def parseSystemStateEvent (counter : Nat) (data : JObj) (ts : Int) : ConversationEvent :=
  { id := "event_" ++ toString counter, timestamp := ts,
    source := JVal.str "marcus", target := JVal.str "system",
    event_type := JVal.str "system_state",
    message := JVal.str "System state update",
    metadata := JVal.obj
      [("active_workers", jget data "active_workers" (JVal.num 0)),
       ("tasks_in_progress", jget data "tasks_in_progress" (JVal.num 0)),
       ("tasks_completed", jget data "tasks_completed" (JVal.num 0)),
       ("tasks_blocked", jget data "tasks_blocked" (JVal.num 0)),
       ("system_metrics", jget data "system_metrics" (JVal.obj []))],
    confidence := JVal.null, duration_ms := JVal.null }

/-- Source `_parse_log_entry`, after its `self._event_counter += 1` (so
`counter` is the incremented value).  `now` is the datetime value
`datetime.fromisoformat(datetime.now().isoformat())` round-trips to when
the record has no `timestamp` key.  An `Except.error` is the
`ValueError` (unparseable string) or `TypeError` (non-string value) that
`datetime.fromisoformat` raises on a `timestamp` the record does carry. -/
def parseLogEntry (counter : Nat) (data : JObj) (now : Int) :
    Except Unit (Option ConversationEvent) :=
  let tsr : Except Unit Int :=
    match aget data "timestamp" with
    | none => Except.ok now
    | some (JVal.str s) =>
        match fromisoformat s with
        | some t => Except.ok t
        | none => Except.error ()
    | some _ => Except.error ()
  match tsr with
  | Except.error _ => Except.error ()
  | Except.ok ts =>
      if amem data "type" && !amem data "event" then
        Except.ok (some (parseSimpleEvent counter data ts))
      else
        let en := jget data "event" (JVal.str "")
        if en = JVal.str "worker_communication" then
          Except.ok (some (parseWorkerEvent counter data ts))
        else if en = JVal.str "pm_thinking" then
          Except.ok (some (parseThinkingEvent counter data ts))
        else if en = JVal.str "pm_decision" then
          Except.ok (some (parseDecisionEvent counter data ts))
        else if en = JVal.str "kanban_interaction" then
          Except.ok (some (parseKanbanEvent counter data ts))
        else if en = JVal.str "task_assignment" then
          Except.ok (some (parseAssignmentEvent counter data ts))
        else if en = JVal.str "progress_update" then
          Except.ok (some (parseProgressEvent counter data ts))
        else if en = JVal.str "blocker_reported" then
          Except.ok (some (parseBlockerEvent counter data ts))
        else if en = JVal.str "system_state" then
          Except.ok (some (parseSystemStateEvent counter data ts))
        else Except.ok none

deriving instance DecidableEq for Except

/-- Tailer state: the event counter and the bounded FIFO history. -/
structure StreamState where
  counter : Nat
  history : List ConversationEvent
deriving DecidableEq

/-- Source `self.max_history_size`. -/
def maxHistorySize : Nat := 1000

/-- Source `history.append(event)` then `pop(0)` when over the bound. -/
def pushHistory (h : List ConversationEvent) (e : ConversationEvent) :
    List ConversationEvent :=
  let h' := h ++ [e]
  if maxHistorySize < h'.length then h'.drop 1 else h'

/-- Source `_process_log_file` from offset 0 over a static file's decoded
lines.  A `none` line is one `json.loads` rejects (`_process_log_line`
skips it without touching the counter); on a parse error the
`ValueError`/`TypeError` escapes `_process_log_line` (whose handler
catches only `json.JSONDecodeError`) into `_process_log_file`'s blanket
`except`, which abandons the rest of the file — with the counter already
incremented.  `nows n` is the current time at the `n`-th parser
invocation. -/
def processFile (st : StreamState) (nows : Nat → Int) :
    List (Option JObj) → StreamState
  | [] => st
  | none :: rest => processFile st nows rest
  | some data :: rest =>
      match parseLogEntry (st.counter + 1) data (nows st.counter) with
      | Except.error _ => { st with counter := st.counter + 1 }
      | Except.ok none => processFile { st with counter := st.counter + 1 } nows rest
      | Except.ok (some ev) =>
          processFile { counter := st.counter + 1,
                        history := pushHistory st.history ev } nows rest

/-! ### Replay timeline (`get_timeline_data`) -/

/-- Python `datetime.fromisoformat(event.get("timestamp", ""))`: `none` is the
raise (missing key → `""` → `ValueError`; non-string → `TypeError`). -/
def eventTsParse (e : JObj) : Option Int :=
  match aget e "timestamp" with
  | some (JVal.str s) => fromisoformat s
  | _ => none

/-- Python `{x:.0f}` on the integral numbers this model carries. -/
def fmtPct (v : JVal) : String :=
  match v with
  | .num n => toString (100 * n)
  | _ => "0"

/-- Python `str.title()`. -/
def pyTitleChars : List Char → Bool → List Char
  | [], _ => []
  | c :: cs, up =>
      (if c.isAlpha then (if up then c.toUpper else c.toLower) else c)
        :: pyTitleChars cs (!c.isAlpha)

/-- Source `_get_event_summary` (float formatting and string slicing modelled
on the integral/string values the store produces; no claim depends on
the summary text, only on `get_timeline_data`'s raise behaviour). -/
def eventSummary (e : JObj) : String :=
  let event_type := jget e "event_type" (JVal.str "")
  let data := jget e "data" (JVal.obj [])
  if event_type = JVal.str "decision_point" then
    "Decision: " ++ (pyStr (dget data "decision" (JVal.str "Unknown"))).take 50 ++ "..."
  else if event_type = JVal.str "ai_prd_analysis" then
    "AI Analysis: " ++ fmtPct (dget data "confidence" (JVal.num 0)) ++ "% confidence"
  else if event_type = JVal.str "tasks_generated" then
    "Generated " ++ pyStr (dget data "task_count" (JVal.num 0)) ++ " tasks"
  else if event_type = JVal.str "task_created" then
    "Created: " ++ pyStr (dget data "task_name" (JVal.str "Unknown task"))
  else if event_type = JVal.str "quality_metrics" then
    "Quality: " ++ fmtPct (dget data "overall_quality_score" (JVal.num 0)) ++ "%"
  else
    String.mk (pyTitleChars
      ((pyStr event_type).toList.map fun c => if c = '_' then ' ' else c) true)

/-- One timeline row. -/
structure TimelineEntry where
  position : Nat
  timestamp : JVal
  relative_ms : Int
  event_type : JVal
  stage : JVal
  status : JVal
  summary : String
deriving DecidableEq

/-- The row built for position `i` with relative time `rel`. -/
def timelineEntry (i : Nat) (e : JObj) (rel : Int) : TimelineEntry :=
  { position := i, timestamp := jget e "timestamp" (JVal.str ""),
    relative_ms := rel, event_type := jget e "event_type" (JVal.str ""),
    stage := jget e "stage" (JVal.str ""), status := jget e "status" (JVal.str ""),
    summary := eventSummary e }

/-- The loop body of `get_timeline_data` for positions `≥ 1`:
`relative_ms = int((event_time - start_time).total_seconds() * 1000)`,
raising (`Except.error`) whenever a timestamp fails to parse. -/
def timelineGo (start : Int) : Nat → List JObj → Except Unit (List TimelineEntry)
  | _, [] => Except.ok []
  | i, e :: rest =>
      match eventTsParse e with
      | none => Except.error ()
      | some t =>
          match timelineGo start (i + 1) rest with
          | Except.error _ => Except.error ()
          | Except.ok tl => Except.ok (timelineEntry i e ((t - start) * 1000) :: tl)

/-- Source `get_timeline_data`: parses the first event's timestamp as
`start_time` (relative 0) and every later event's timestamp against it;
any missing or unparseable timestamp raises. -/
def get_timeline_data (r : Replay) : Except Unit (List TimelineEntry) :=
  match r.events with
  | [] => Except.ok []
  | e0 :: rest =>
      match eventTsParse e0 with
      | none => Except.error ()
      | some t0 =>
          match timelineGo t0 1 rest with
          | Except.error _ => Except.error ()
          | Except.ok tl => Except.ok (timelineEntry 0 e0 0 :: tl)

/-! ### Concrete stream/timeline scenarios -/

/-- A flow whose single stored event carries an unparseable timestamp
(the payload's `timestamp` key overrides the store's stamp). -/
def c7data : PData :=
  add_event (add_flow emptyData "f" "proj" "t0") "f"
    [("event_type", JVal.str "x"), ("timestamp", JVal.str "not-a-date")]
    "2024-01-01T00:00:01"

/-- The replay session over that flow. -/
def c7replay : Replay := mkReplay c7data "f"

/-- A one-line file whose record has no `timestamp` key. -/
def c8file : List (Option JObj) := [some [("type", JVal.str "ping_request")]]

/-- The same record with a `timestamp` key. -/
def c8fileTs : List (Option JObj) :=
  [some [("type", JVal.str "ping_request"),
         ("timestamp", JVal.str "2024-01-01T00:00:01")]]

/-! ## Association-list (Python dict) lemmas -/

theorem aget_aset_self {β : Type} (d : List (String × β)) (k : String) (v : β) :
    aget (aset d k v) k = some v := by
  induction d with
  | nil => simp [aset, aget]
  | cons kv rest ih =>
      obtain ⟨k', v'⟩ := kv
      by_cases h : k' = k <;> simp [aset, aget, h, ih]

theorem aget_aset_ne {β : Type} (d : List (String × β)) (k k' : String) (v : β)
    (h : k' ≠ k) : aget (aset d k v) k' = aget d k' := by
  have h' : ¬(k = k') := fun hc => h hc.symm
  induction d with
  | nil => simp [aset, aget, h']
  | cons kv rest ih =>
      obtain ⟨k₀, v₀⟩ := kv
      by_cases h0 : k₀ = k
      · subst h0
        simp [aset, aget, h']
      · by_cases h1 : k₀ = k' <;> simp [aset, aget, h0, h1, h, h', ih]

theorem amem_aset_self {β : Type} (d : List (String × β)) (k : String) (v : β) :
    amem (aset d k v) k = true := by
  simp [amem, aget_aset_self]

theorem aset_aset_self {β : Type} (d : List (String × β)) (k : String) (v v' : β) :
    aset (aset d k v) k v' = aset d k v' := by
  induction d with
  | nil => simp [aset]
  | cons kv rest ih =>
      obtain ⟨k₀, v₀⟩ := kv
      by_cases h : k₀ = k <;> simp [aset, h, ih]

theorem aset_comm_of_mem {β : Type} (d : List (String × β)) (k1 k2 : String)
    (v1 v2 : β) (hmem : amem d k2 = true) (hne : k1 ≠ k2) :
    aset (aset d k1 v1) k2 v2 = aset (aset d k2 v2) k1 v1 := by
  induction d with
  | nil => simp [amem, aget] at hmem
  | cons kv rest ih =>
      obtain ⟨k₀, v₀⟩ := kv
      by_cases h1 : k₀ = k1
      · subst h1
        simp [aset, Ne.symm hne, hne]
      · by_cases h2 : k₀ = k2
        · subst h2
          simp [aset, hne, Ne.symm hne, h1]
        · have hmem' : amem rest k2 = true := by
            simpa [amem, aget, h2] using hmem
          simp [aset, h1, h2, ih hmem']

theorem aget_amodify {β : Type} (d : List (String × β)) (k k' : String)
    (f : β → β) :
    aget (amodify d k f) k' =
      if k' = k then (aget d k').map f else aget d k' := by
  induction d with
  | nil => simp [amodify, aget]
  | cons kv rest ih =>
      obtain ⟨k₀, v₀⟩ := kv
      simp only [amodify, List.map_cons]
      by_cases h0 : k₀ = k
      · subst h0
        rw [if_pos rfl]
        by_cases h1 : k₀ = k'
        · subst h1
          simp [aget, amodify]
        · have h1' : ¬(k' = k₀) := fun hc => h1 hc.symm
          simpa [aget, amodify, h1, h1'] using ih
      · rw [if_neg h0]
        by_cases h1 : k₀ = k'
        · subst h1
          simp [aget, h0]
        · simpa [aget, amodify, h0, h1] using ih

theorem amem_amodify {β : Type} (d : List (String × β)) (k k' : String)
    (f : β → β) : amem (amodify d k f) k' = amem d k' := by
  by_cases h : k' = k <;> simp [amem, aget_amodify, h]

theorem amodify_amodify {β : Type} (d : List (String × β)) (k : String)
    (f g : β → β) : amodify (amodify d k f) k g = amodify d k (fun r => g (f r)) := by
  simp only [amodify, List.map_map]
  apply List.map_congr_left
  intro kv _
  by_cases h : kv.1 = k <;> simp [Function.comp, h]

theorem aget_amerge_not_mem (a b : JObj) (k : String) (h : amem b k = false) :
    aget (amerge a b) k = aget a k := by
  induction b generalizing a with
  | nil => simp [amerge]
  | cons kv rest ih =>
      obtain ⟨k₀, v₀⟩ := kv
      by_cases h0 : k₀ = k
      · simp [amem, aget, h0] at h
      · have hr : amem rest k = false := by simpa [amem, aget, h0] using h
        have : amerge a ((k₀, v₀) :: rest) = amerge (aset a k₀ v₀) rest := rfl
        rw [this, ih _ hr, aget_aset_ne]
        exact fun hc => h0 hc.symm

/-! ## Behavioural lemmas about the store operations -/

theorem amem_add_event (d : PData) (fid : String) (ev : JObj) (now g : String) :
    amem (add_event d fid ev now).flows g = amem d.flows g := by
  unfold add_event
  by_cases h : amem d.flows fid = true
  · rw [if_pos h]
    cases hs : aget ev "stage" <;> simp [hs, amem_amodify]
  · rw [if_neg h]

theorem events_add_event (d : PData) (fid : String) (ev : JObj) (now : String)
    (h : amem d.flows fid = true) :
    (add_event d fid ev now).events = d.events ++ [mkEventData d fid ev now] := by
  unfold add_event
  rw [if_pos h]
  cases hs : aget ev "stage" <;> simp [hs]

theorem aget_mkEventData_flow_id (d : PData) (fid : String) (ev : JObj)
    (now : String) (h : amem ev "flow_id" = false) :
    aget (mkEventData d fid ev now) "flow_id" = some (JVal.str fid) := by
  unfold mkEventData
  have hbase :
      aget (amerge [("flow_id", JVal.str fid), ("timestamp", JVal.str now)] ev) "flow_id"
        = some (JVal.str fid) := by
    rw [aget_amerge_not_mem _ _ _ h]; rfl
  by_cases hid :
      amem (amerge [("flow_id", JVal.str fid), ("timestamp", JVal.str now)] ev) "event_id" = true
  · rw [if_pos hid]; exact hbase
  · rw [if_neg hid, aget_aset_ne _ _ _ _ (by decide)]
    exact hbase

theorem get_flow_events_add_event (d : PData) (fid : String) (ev : JObj) (now : String)
    (hreg : amem d.flows fid = true) (hno : amem ev "flow_id" = false) :
    get_flow_events (add_event d fid ev now) fid
      = get_flow_events d fid ++ [mkEventData d fid ev now] := by
  unfold get_flow_events
  rw [events_add_event d fid ev now hreg, List.filter_append]
  simp [aget_mkEventData_flow_id d fid ev now hno]

theorem get_flow_events_appendAll (fid : String) (evs : List (JObj × String)) :
    ∀ (d : PData), amem d.flows fid = true →
      (∀ p ∈ evs, amem p.1 "flow_id" = false) →
      get_flow_events (appendAll d fid evs) fid
        = get_flow_events d fid ++ expectedEvents d fid evs := by
  induction evs with
  | nil => intro d _ _; simp [appendAll, expectedEvents]
  | cons p rest ih =>
      intro d hreg hpl
      obtain ⟨ev, now⟩ := p
      have hno : amem ev "flow_id" = false := hpl (ev, now) (by simp)
      have hreg' : amem (add_event d fid ev now).flows fid = true := by
        rw [amem_add_event]; exact hreg
      have hrest : ∀ q ∈ rest, amem q.1 "flow_id" = false :=
        fun q hq => hpl q (by simp [hq])
      show get_flow_events (appendAll (add_event d fid ev now) fid rest) fid = _
      rw [ih _ hreg' hrest, get_flow_events_add_event d fid ev now hreg hno,
        expectedEvents]
      simp

/-! ## Claim theorems: the shared event store -/

/-- C1 (counterexample): with flow `f` created and then completed
(`completed_at = "t1"` is set), a further `append_event` does not fail and
does persist the event — the store document changes and
`read_flow_events` afterwards returns one event — contradicting the
claim that append on a completed flow fails with `FlowClosedError`
leaving the store unchanged. -/
theorem C1_counterexample_closed_append_persists :
    (aget flowFClosed.flows "f").map (fun r => aget r "completed_at")
        = some (some (JVal.str "t1"))
    ∧ add_event flowFClosed "f" [("event_type", JVal.str "work")] "t2" ≠ flowFClosed
    ∧ (get_flow_events
        (add_event flowFClosed "f" [("event_type", JVal.str "work")] "t2") "f").length = 1 := by
  decide

/-- C1 (amended): `append_event` raises no error of any kind.  On an
unknown flow it silently returns and the store document is unchanged;
on any registered flow — completed or not, since completion status is
never consulted — it appends the processed event to the document. -/
theorem C1_amended_append_no_error (d : PData) (fid : String) (ev : JObj) (now : String) :
    (amem d.flows fid = false → add_event d fid ev now = d)
    ∧ (amem d.flows fid = true →
        (add_event d fid ev now).events = d.events ++ [mkEventData d fid ev now]) := by
  constructor
  · intro h
    unfold add_event
    rw [if_neg (by simp [h])]
  · intro h
    exact events_add_event d fid ev now h

/-- Witness for `C1_amended_append_no_error` at the completed-flow store:
append on the unknown flow `g` is a no-op, append on the completed flow
`f` stores the event. -/
theorem C1_amended_witness :
    add_event flowFClosed "g" [("event_type", JVal.str "work")] "t2" = flowFClosed
    ∧ (add_event flowFClosed "f" [("event_type", JVal.str "work")] "t2").events
        = flowFClosed.events
          ++ [mkEventData flowFClosed "f" [("event_type", JVal.str "work")] "t2"] :=
  ⟨(C1_amended_append_no_error flowFClosed "g" [("event_type", JVal.str "work")] "t2").1
      (by decide),
   (C1_amended_append_no_error flowFClosed "f" [("event_type", JVal.str "work")] "t2").2
      (by decide)⟩

/-- C2 (counterexample): `create_flow` on an id that already exists does
not fail with `DuplicateFlowError` and does not leave the existing
record unchanged: it overwrites the record with a fresh one carrying the
new project name. -/
theorem C2_counterexample_duplicate_overwrites :
    aget (add_flow flowF "f" "beta" "t1").flows "f" = some (freshFlowRec "f" "beta" "t1")
    ∧ aget (add_flow flowF "f" "beta" "t1").flows "f" ≠ aget flowF.flows "f" := by
  decide

/-- C2 (amended): `create_flow` always installs a fresh active record
(`is_active = true`, `completed_at = null`) under the given id —
overwriting any existing record with that id rather than failing — and
leaves every other flow record unchanged. -/
theorem C2_amended_create_flow (d : PData) (fid pn now : String) :
    aget (add_flow d fid pn now).flows fid = some (freshFlowRec fid pn now)
    ∧ aget (freshFlowRec fid pn now) "is_active" = some (JVal.bool true)
    ∧ aget (freshFlowRec fid pn now) "completed_at" = some JVal.null
    ∧ (∀ g, g ≠ fid → aget (add_flow d fid pn now).flows g = aget d.flows g) := by
  refine ⟨aget_aset_self d.flows fid _, rfl, rfl, ?_⟩
  intro g hg
  exact aget_aset_ne d.flows fid g _ hg

/-- Witness for `C2_amended_create_flow` at a duplicate-id call. -/
theorem C2_amended_witness :
    aget (add_flow flowF "f" "beta" "t1").flows "f" = some (freshFlowRec "f" "beta" "t1")
    ∧ aget (add_flow flowF "f" "beta" "t1").flows "g" = aget flowF.flows "g" :=
  ⟨(C2_amended_create_flow flowF "f" "beta" "t1").1,
   (C2_amended_create_flow flowF "f" "beta" "t1").2.2.2 "g" (by decide)⟩

/-- C4 (counterexample): `complete_flow` is not idempotent as claimed —
a repeated call at a later time `t2` changes the stored flow record,
overwriting `completed_at` with `t2`. -/
theorem C4_counterexample_recomplete_changes_record :
    complete_flow (complete_flow flowF "f" "t1") "f" "t2" ≠ complete_flow flowF "f" "t1"
    ∧ (aget (complete_flow (complete_flow flowF "f" "t1") "f" "t2").flows "f").map
        (fun r => aget r "completed_at") = some (some (JVal.str "t2")) := by
  decide

/-- The record-level absorption behind repeated `complete_flow`. -/
theorem closeRec_closeRec (r : JObj) (t1 t2 : String) :
    closeRec t2 (closeRec t1 r) = closeRec t2 r := by
  unfold closeRec
  rw [aset_comm_of_mem (aset r "completed_at" (JVal.str t1)) "is_active" "completed_at"
      (JVal.bool false) (JVal.str t2)
      (amem_aset_self r "completed_at" (JVal.str t1)) (by decide),
    aset_aset_self, aset_aset_self]

/-- C4 (amended): a repeated `complete_flow` keeps the flow completed
(`is_active` stays `false`, every other field is untouched) but
overwrites `completed_at` with the later call's time: completing twice
is the same as completing once at the second time.  It is a no-op only
when the repeated call carries the same current time. -/
theorem C4_amended_complete_flow_absorption (d : PData) (fid t1 t2 : String) :
    complete_flow (complete_flow d fid t1) fid t2 = complete_flow d fid t2 := by
  by_cases h : amem d.flows fid = true
  · have h1 : complete_flow d fid t1
        = { d with flows := amodify d.flows fid (closeRec t1) } := by
      unfold complete_flow; rw [if_pos h]
    have h2 : amem (amodify d.flows fid (closeRec t1)) fid = true := by
      rw [amem_amodify]; exact h
    conv_lhs => rw [h1]
    unfold complete_flow
    rw [if_pos h2, if_pos h]
    have hf : (fun r => closeRec t2 (closeRec t1 r)) = closeRec t2 :=
      funext fun r => closeRec_closeRec r t1 t2
    simp only [amodify_amodify, hf]
  · have h1 : complete_flow d fid t1 = d := by
      unfold complete_flow; rw [if_neg h]
    rw [h1]

/-- C5 (counterexample): an `append_event` whose payload itself carries a
`flow_id` key succeeds (one event is persisted) yet `read_flow_events`
on the flow it was appended to returns the empty list — the payload's
key overrides the one the store sets, so the read does not return the
appended events. -/
theorem C5_counterexample_payload_overrides_flow_id :
    (add_event flowF "f" [("flow_id", JVal.str "g")] "t1").events.length = 1
    ∧ get_flow_events (add_event flowF "f" [("flow_id", JVal.str "g")] "t1") "f" = [] := by
  decide

/-- C5 (amended): provided no appended payload itself contains a
`flow_id` key (the store stamps the flow id, but a payload key would
override it), any sequence of `append_event` calls on a registered flow
is returned by `read_flow_events` exactly, in append order, after the
events already stored; and a flow id matched by no stored event — in
particular a flow that was never created — reads back as the empty list
rather than an error. -/
theorem C5_amended_read_returns_appends_in_order (d : PData) (fid : String)
    (evs : List (JObj × String))
    (hreg : amem d.flows fid = true)
    (hpl : ∀ p ∈ evs, amem p.1 "flow_id" = false) :
    get_flow_events (appendAll d fid evs) fid
      = get_flow_events d fid ++ expectedEvents d fid evs
    ∧ ∀ (g : String), (∀ e ∈ d.events, aget e "flow_id" ≠ some (JVal.str g)) →
        get_flow_events d g = [] := by
  constructor
  · exact get_flow_events_appendAll fid evs d hreg hpl
  · intro g hg
    unfold get_flow_events
    rw [List.filter_eq_nil_iff]
    intro e he
    simpa using hg e he

/-- Witness for `C5_amended_read_returns_appends_in_order`: two appends
on flow `f` read back in order; the never-created flow `nope` reads back
empty. -/
theorem C5_amended_witness :
    get_flow_events (appendAll flowF "f" twoAppends) "f"
      = get_flow_events flowF "f" ++ expectedEvents flowF "f" twoAppends
    ∧ get_flow_events flowF "nope" = [] :=
  ⟨(C5_amended_read_returns_appends_in_order flowF "f" twoAppends
      (by decide) (by decide)).1,
   (C5_amended_read_returns_appends_in_order flowF "f" twoAppends
      (by decide) (by decide)).2 "nope" (by decide)⟩

/-! ## Claim theorems: cross-process interleavings (C3) -/

theorem runSched_append (m : Machine) (s1 s2 : List Bool) :
    runSched m (s1 ++ s2) = runSched (runSched m s1) s2 := by
  simp [runSched, List.foldl_append]

theorem amem_iterAppend (ev : JObj) (now : String) (n : Nat) (d : PData) :
    amem (iterAppend ev now n d).flows "f" = amem d.flows "f" := by
  induction n generalizing d with
  | zero => rfl
  | succ n ih => rw [iterAppend, ih, amem_add_event]

theorem count_iterAppend (ev : JObj) (now : String) (n : Nat) (d : PData)
    (hreg : amem d.flows "f" = true) (hno : amem ev "flow_id" = false) :
    (get_flow_events (iterAppend ev now n d) "f").length
      = (get_flow_events d "f").length + n := by
  induction n generalizing d with
  | zero => rfl
  | succ n ih =>
      rw [iterAppend, ih (add_event d "f" ev now) (by rw [amem_add_event]; exact hreg),
        get_flow_events_add_event d "f" ev now hreg hno]
      simp
      omega

theorem runSched_replicate_true (n : Nat) :
    ∀ (m : Machine), m.pa = { remaining := n, pending := none } →
      runSched m (List.replicate (2 * n) true)
        = { file := iterAppend evA "tA" n m.file,
            pa := { remaining := 0, pending := none }, pb := m.pb } := by
  induction n with
  | zero =>
      intro m hm
      cases m
      simp_all [runSched, iterAppend]
  | succ n ih =>
      intro m hm
      have h2 : 2 * (n + 1) = (2 * n) + 1 + 1 := by ring
      rw [h2, List.replicate_succ, List.replicate_succ]
      show runSched (machineStep (machineStep m true) true) (List.replicate (2 * n) true) = _
      have hstep : machineStep (machineStep m true) true
          = { m with file := add_event m.file "f" evA "tA",
                     pa := { remaining := n, pending := none } } := by
        simp [machineStep, procStep, hm]
      rw [hstep, ih _ rfl]
      rfl

theorem runSched_replicate_false (n : Nat) :
    ∀ (m : Machine), m.pb = { remaining := n, pending := none } →
      runSched m (List.replicate (2 * n) false)
        = { file := iterAppend evB "tB" n m.file,
            pa := m.pa, pb := { remaining := 0, pending := none } } := by
  induction n with
  | zero =>
      intro m hm
      cases m
      simp_all [runSched, iterAppend]
  | succ n ih =>
      intro m hm
      have h2 : 2 * (n + 1) = (2 * n) + 1 + 1 := by ring
      rw [h2, List.replicate_succ, List.replicate_succ]
      show runSched (machineStep (machineStep m false) false) (List.replicate (2 * n) false) = _
      have hstep : machineStep (machineStep m false) false
          = { m with file := add_event m.file "f" evB "tB",
                     pb := { remaining := n, pending := none } } := by
        simp [machineStep, procStep, hm]
      rw [hstep, ih _ rfl]
      rfl

/-- C3 (counterexample): the exclusive lock is *not* held across the
read-modify-write, and there is an interleaving of the two processes'
100 `append_event` calls each — A reads, B reads, A writes, B writes,
then all remaining calls run sequentially — under which both processes
complete all their calls yet the final stored event count is 199, not
200: B's first write discarded A's first event. -/
theorem C3_counterexample_lost_update :
    (runSched machine0 lostUpdateSched).pa = { remaining := 0, pending := none }
    ∧ (runSched machine0 lostUpdateSched).pb = { remaining := 0, pending := none }
    ∧ (get_flow_events (runSched machine0 lostUpdateSched).file "f").length = 199 := by
  have hex : runSched machine0 [true, false, true, false]
      = { file := add_event flowF "f" evB "tB",
          pa := { remaining := 99, pending := none },
          pb := { remaining := 99, pending := none } } := by decide
  have h198t : (List.replicate 198 true : List Bool) = List.replicate (2 * 99) true := by
    norm_num
  have h198f : (List.replicate 198 false : List Bool) = List.replicate (2 * 99) false := by
    norm_num
  have hsplit : lostUpdateSched
      = [true, false, true, false]
        ++ (List.replicate 198 true ++ List.replicate 198 false) := rfl
  rw [hsplit, runSched_append, runSched_append, hex, h198t, h198f,
    runSched_replicate_true 99 _ rfl, runSched_replicate_false 99 _ rfl]
  refine ⟨rfl, rfl, ?_⟩
  have hreg1 : amem (add_event flowF "f" evB "tB").flows "f" = true := by decide
  have hreg2 : amem (iterAppend evA "tA" 99 (add_event flowF "f" evB "tB")).flows "f" = true := by
    rw [amem_iterAppend]; exact hreg1
  rw [count_iterAppend evB "tB" 99 _ hreg2 (by decide),
    count_iterAppend evA "tA" 99 _ hreg1 (by decide)]
  have hone : (get_flow_events (add_event flowF "f" evB "tB") "f").length = 1 := by decide
  omega

/-- C3 (amended): each individual read and each individual write is
protected by its own lock acquisition, but the lock is released between
them, so atomicity holds only for interleavings in which no call's
read/write pair overlaps another's.  For the fully sequential
interleaving of the two processes' 100 calls each, the final stored
event count is exactly 200 and both processes complete. -/
theorem C3_amended_sequential_200 :
    (runSched machine0 seqSched).pa = { remaining := 0, pending := none }
    ∧ (runSched machine0 seqSched).pb = { remaining := 0, pending := none }
    ∧ (get_flow_events (runSched machine0 seqSched).file "f").length = 200 := by
  have h200t : (List.replicate 200 true : List Bool) = List.replicate (2 * 100) true := by
    norm_num
  have h200f : (List.replicate 200 false : List Bool) = List.replicate (2 * 100) false := by
    norm_num
  have hsplit : seqSched = List.replicate 200 true ++ List.replicate 200 false := rfl
  rw [hsplit, runSched_append, h200t, h200f,
    runSched_replicate_true 100 machine0 rfl, runSched_replicate_false 100 _ rfl]
  refine ⟨rfl, rfl, ?_⟩
  simp only [show machine0.file = flowF from rfl]
  have hreg0 : amem flowF.flows "f" = true := by decide
  have hreg1 : amem (iterAppend evA "tA" 100 flowF).flows "f" = true := by
    rw [amem_iterAppend]; exact hreg0
  rw [count_iterAppend evB "tB" 100 _ hreg1 (by decide),
    count_iterAppend evA "tA" 100 _ hreg0 (by decide)]
  have hzero : (get_flow_events flowF "f").length = 0 := by decide
  omega

/-! ## Claim theorems: the replay controller (C6, C9, C10) -/

theorem charsLe_trans : ∀ {x y z : List Char},
    charsLe x y = true → charsLe y z = true → charsLe x z = true
  | [], _, _, _, _ => rfl
  | _ :: _, [], _, h, _ => by simp [charsLe] at h
  | _ :: _, _ :: _, [], _, h => by simp [charsLe] at h
  | a :: as, b :: bs, c :: cs, h1, h2 => by
      simp only [charsLe] at h1 h2 ⊢
      by_cases hab : a = b
      · subst hab
        rw [if_pos rfl] at h1
        by_cases hac : a = c
        · subst hac
          rw [if_pos rfl] at h2 ⊢
          exact charsLe_trans h1 h2
        · rw [if_neg hac] at h2 ⊢
          exact h2
      · by_cases hbc : b = c
        · subst hbc
          rw [if_neg hab] at h1 ⊢
          exact h1
        · rw [if_neg hab, decide_eq_true_eq] at h1
          rw [if_neg hbc, decide_eq_true_eq] at h2
          have hlt : a < c := lt_trans h1 h2
          rw [if_neg (ne_of_lt hlt), decide_eq_true_eq]
          exact hlt

theorem charsLe_total : ∀ (x y : List Char), (charsLe x y || charsLe y x) = true
  | [], _ => by simp [charsLe]
  | _ :: _, [] => by simp [charsLe]
  | a :: as, b :: bs => by
      simp only [charsLe]
      by_cases hab : a = b
      · subst hab
        rw [if_pos rfl, if_pos rfl]
        exact charsLe_total as bs
      · rw [if_neg hab, if_neg (Ne.symm hab)]
        rcases lt_or_gt_of_ne hab with h | h
        · simp [h]
        · simp [h]

theorem tsLe_trans (a b c : JObj) (h1 : tsLe a b = true) (h2 : tsLe b c = true) :
    tsLe a c = true := charsLe_trans h1 h2

theorem tsLe_total (a b : JObj) : (tsLe a b || tsLe b a) = true :=
  charsLe_total (tsKey a).toList (tsKey b).toList

theorem loadFlowEvents_perm (d : PData) (fid : String) :
    (loadFlowEvents d fid).Perm (get_flow_events d fid) :=
  List.mergeSort_perm _ _

theorem loadFlowEvents_sorted (d : PData) (fid : String) :
    (loadFlowEvents d fid).Pairwise (fun e e' => tsLe e e' = true) :=
  List.sorted_mergeSort (fun a b c => tsLe_trans a b c) tsLe_total _

theorem loadFlowEvents_eq_iff (d : PData) (fid : String) :
    loadFlowEvents d fid = get_flow_events d fid
      ↔ (get_flow_events d fid).Pairwise (fun e e' => tsLe e e' = true) := by
  constructor
  · intro h
    rw [← h]
    exact loadFlowEvents_sorted d fid
  · exact List.mergeSort_of_sorted

/-- C10: the construction-time snapshot is the store's event list for
the flow stably re-ordered by the string value of the `timestamp` field
(Python `sorted` with key `e.get('timestamp', '')`, modelled by the
stable `List.mergeSort`): it is a permutation of the stored list, it is
non-decreasing under that key, an event lacking a timestamp (key `""`)
sorts before everything, and the snapshot equals the store's append
order exactly when the stored timestamps are already non-decreasing. -/
theorem C10_snapshot_is_stable_timestamp_sort (d : PData) (fid : String) :
    (loadFlowEvents d fid).Perm (get_flow_events d fid)
    ∧ (loadFlowEvents d fid).Pairwise (fun e e' => tsLe e e' = true)
    ∧ (∀ e e' : JObj, aget e "timestamp" = none → tsLe e e' = true)
    ∧ (loadFlowEvents d fid = get_flow_events d fid
        ↔ (get_flow_events d fid).Pairwise (fun e e' => tsLe e e' = true)) := by
  refine ⟨loadFlowEvents_perm d fid, loadFlowEvents_sorted d fid, ?_,
    loadFlowEvents_eq_iff d fid⟩
  intro e e' h
  show strLe (tsKey e) (tsKey e') = true
  rw [show tsKey e = "" from by rw [tsKey, h]]
  rfl

/-- Witness for `C10_snapshot_is_stable_timestamp_sort`: the
missing-timestamp conjunct at a concrete pair, and the equivalence at
the concrete three-event flow (whose timestamps are increasing, so the
snapshot is the stored order itself). -/
theorem C10_witness :
    tsLe [] [("timestamp", JVal.str "2024-01-01T00:00:01")] = true
    ∧ loadFlowEvents c9data "f1" = get_flow_events c9data "f1" :=
  ⟨(C10_snapshot_is_stable_timestamp_sort c9data "f1").2.2.1
      [] [("timestamp", JVal.str "2024-01-01T00:00:01")] rfl,
   ((C10_snapshot_is_stable_timestamp_sort c9data "f1").2.2.2).mpr (by decide)⟩

/-- The snapshot of the C9 flow is its stored order: the store stamped
increasing timestamps. -/
theorem c9_load_eq : loadFlowEvents c9data "f1" = get_flow_events c9data "f1" :=
  List.mergeSort_of_sorted (by decide)

/-- The C9 replay session, fully evaluated. -/
theorem c9replay_eval : c9replay
    = { flow_id := "f1", events := get_flow_events c9data "f1",
        current_position := 0, max_position := 3 } := by
  unfold c9replay mkReplay
  rw [c9_load_eq]
  decide

/-- C6: navigation over any replay session (any snapshot with
`max_position = len(events)` and `N > 0` events, any cursor position):
`step_forward` at `N-1` fails and stays; `step_back` at `0` fails and
stays; `seek_to(p)` succeeds exactly for `0 ≤ p < N`, after which the
current event is `events[p]` (present); for out-of-range `p` it fails
with the whole state unchanged.  All four operations are total Lean
functions — none can raise. -/
theorem C6_navigation_bounds (r : Replay)
    (hmax : r.max_position = (r.events.length : Int))
    (hN : 0 < r.events.length) :
    (r.current_position = (r.events.length : Int) - 1 → step_forward r = (false, r))
    ∧ (r.current_position = 0 → step_back r = (false, r))
    ∧ (∀ p : Int, 0 ≤ p → p < (r.events.length : Int) →
        (seek_to r p).1 = true
        ∧ (seek_to r p).2.current_position = p
        ∧ get_current_event (seek_to r p).2 = r.events.get? p.toNat
        ∧ (get_current_event (seek_to r p).2).isSome = true)
    ∧ (∀ p : Int, ¬(0 ≤ p ∧ p < (r.events.length : Int)) → seek_to r p = (false, r)) := by
  refine ⟨?_, ?_, ?_, ?_⟩
  · intro hp
    unfold step_forward
    rw [if_neg (by rw [hp, hmax]; omega)]
  · intro hp
    unfold step_back
    rw [if_neg (by rw [hp]; omega)]
  · intro p hp0 hpN
    unfold seek_to
    rw [if_pos ⟨hp0, by rw [hmax]; exact hpN⟩]
    refine ⟨rfl, rfl, ?_, ?_⟩
    · unfold get_current_event
      rw [if_pos ⟨hp0, hpN⟩]
    · unfold get_current_event
      rw [if_pos ⟨hp0, hpN⟩]
      rw [List.get?_eq_getElem?]
      have hlt : p.toNat < r.events.length := by omega
      simp [List.getElem?_eq_getElem hlt]
  · intro p hp
    unfold seek_to
    rw [if_neg (by rw [hmax]; exact hp)]

/-- Witness for `C6_navigation_bounds` at the three-event session:
`step_back` at position 0 fails and stays, `seek_to 2` succeeds, and
`seek_to 5` fails leaving the session unchanged. -/
theorem C6_witness :
    step_back c9replay = (false, c9replay)
    ∧ (seek_to c9replay 2).1 = true
    ∧ seek_to c9replay 5 = (false, c9replay) :=
  have hmax : c9replay.max_position = (c9replay.events.length : Int) := by
    rw [c9replay_eval]; decide
  have hN : 0 < c9replay.events.length := by
    rw [c9replay_eval]; decide
  have hpos : c9replay.current_position = 0 := by rw [c9replay_eval]
  have hlen : (c9replay.events.length : Int) = 3 := by rw [c9replay_eval]; decide
  ⟨(C6_navigation_bounds c9replay hmax hN).2.1 hpos,
   ((C6_navigation_bounds c9replay hmax hN).2.2.1 2 (by omega) (by omega)).1,
   (C6_navigation_bounds c9replay hmax hN).2.2.2 5 (by omega)⟩

/-- C9 (counterexample): on the three-event flow the mapping
`find_key_events` returns is not the two-entry map the claim states —
it also contains the other three key event types, each mapped to the
empty list (`decision_point` shown). -/
theorem C9_counterexample_all_key_types_present :
    find_key_events c9replay ≠ c9ClaimedMap
    ∧ aget (find_key_events c9replay) "decision_point" = some []
    ∧ aget c9ClaimedMap "decision_point" = none := by
  rw [c9replay_eval]
  decide

/-- C9 (amended): on the flow with event types
`[ai_prd_analysis, tasks_generated, task_created]`, `find_key_events`
yields the five-entry mapping with `ai_prd_analysis ↦ [0]`,
`tasks_generated ↦ [1]` and the remaining key event types mapped to `[]`
(non-key types such as `task_created` get no entry), and
`find_decision_points` yields `[]`. -/
theorem C9_amended_key_events_full_map :
    find_key_events c9replay
      = [("decision_point", []), ("ai_prd_analysis", [0]), ("tasks_generated", [1]),
         ("quality_metrics", []), ("performance_metrics", [])]
    ∧ find_decision_points c9replay = [] := by
  rw [c9replay_eval]
  decide

/-! ## Claim theorems: the log tailer and the timeline (C7, C8) -/

/-- The C7 flow's snapshot is its stored order (a single event). -/
theorem c7_load_eq : loadFlowEvents c7data "f" = get_flow_events c7data "f" :=
  List.mergeSort_of_sorted (by decide)

/-- The C7 replay session, fully evaluated. -/
theorem c7replay_eval : c7replay
    = { flow_id := "f", events := get_flow_events c7data "f",
        current_position := 0, max_position := 1 } := by
  unfold c7replay mkReplay
  rw [c7_load_eq]
  decide

/-- The timeline loop raises as soon as any event's timestamp fails to
parse. -/
theorem timelineGo_error (start : Int) (l : List JObj) :
    ∀ (i : Nat), (∃ e ∈ l, eventTsParse e = none) →
      timelineGo start i l = Except.error () := by
  induction l with
  | nil => intro i h; simp at h
  | cons e rest ih =>
      intro i h
      cases hte : eventTsParse e with
      | none => simp [timelineGo, hte]
      | some t =>
          have hrest : ∃ x ∈ rest, eventTsParse x = none := by
            rcases h with ⟨x, hx, hpx⟩
            rcases List.mem_cons.mp hx with rfl | hxr
            · rw [hte] at hpx; cases hpx
            · exact ⟨x, hxr, hpx⟩
          simp [timelineGo, hte, ih (i + 1) hrest]

/-- When the record carries a `timestamp` key, `_parse_log_entry` never
consults the current time. -/
theorem parseLogEntry_now_irrelevant (counter : Nat) (data : JObj) (n1 n2 : Int)
    (h : amem data "timestamp" = true) :
    parseLogEntry counter data n1 = parseLogEntry counter data n2 := by
  unfold parseLogEntry
  cases hts : aget data "timestamp" with
  | none => simp [amem, hts] at h
  | some v =>
      simp only [hts]
      cases v <;> rfl

/-- C7 (counterexample): an *unparseable* timestamp does raise.  On the
flow whose single event's timestamp is `"not-a-date"`,
`get_timeline_data` raises `ValueError` instead of defaulting or
excluding the record; and a log line with timestamp `"garbage"` makes
`_parse_log_entry` raise, which yields no event and aborts the rest of
the file (the following well-formed line is never processed). -/
theorem C7_counterexample_unparseable_timestamp_raises :
    get_timeline_data c7replay = Except.error ()
    ∧ processFile { counter := 0, history := [] } (fun _ => 100)
        [some [("type", JVal.str "x"), ("timestamp", JVal.str "garbage")],
         some [("type", JVal.str "y")]]
      = { counter := 1, history := [] } := by
  constructor
  · rw [c7replay_eval]; decide
  · decide

/-- C7 (amended): the line parser defaults a *missing* timestamp to the
current time and still yields an event, and lines that are not valid
JSON are skipped; but a timestamp that is present yet unparseable makes
`_parse_log_entry` raise `ValueError` (escaping `_process_log_line`,
aborting the rest of that file), and `get_timeline_data` raises whenever
any loaded event's timestamp is missing or unparseable, rather than
defaulting or excluding the record. -/
theorem C7_amended_timestamp_handling
    (data : JObj) (counter : Nat) (now : Int) (r : Replay) (s : String) :
    (amem data "timestamp" = false → amem data "type" = true →
      amem data "event" = false →
      parseLogEntry counter data now
        = Except.ok (some (parseSimpleEvent counter data now)))
    ∧ (aget data "timestamp" = some (JVal.str s) → fromisoformat s = none →
      parseLogEntry counter data now = Except.error ())
    ∧ ((∃ e ∈ r.events, eventTsParse e = none) →
      get_timeline_data r = Except.error ()) := by
  refine ⟨?_, ?_, ?_⟩
  · intro h1 h2 h3
    have hts : aget data "timestamp" = none := by
      cases hts : aget data "timestamp" with
      | none => rfl
      | some v => rw [amem, hts] at h1; cases h1
    unfold parseLogEntry
    simp only [hts, h2, h3]
    rfl
  · intro hts hfr
    unfold parseLogEntry
    simp only [hts, hfr]
  · intro h
    unfold get_timeline_data
    cases hev : r.events with
    | nil =>
        rw [hev] at h
        simp at h
    | cons e0 rest =>
        rw [hev] at h
        cases hte : eventTsParse e0 with
        | none => simp [hte]
        | some t0 =>
            have hrest : ∃ x ∈ rest, eventTsParse x = none := by
              rcases h with ⟨x, hx, hpx⟩
              rcases List.mem_cons.mp hx with rfl | hxr
              · rw [hte] at hpx; cases hpx
              · exact ⟨x, hxr, hpx⟩
            simp [hte, timelineGo_error t0 rest 1 hrest]

/-- Witness for `C7_amended_timestamp_handling`: a simple-format record
without a timestamp parses to an event stamped with the current time; a
record with timestamp `"garbage"` raises; the C7 replay session's
timeline raises. -/
theorem C7_amended_witness :
    parseLogEntry 1 [("type", JVal.str "x")] 100
      = Except.ok (some (parseSimpleEvent 1 [("type", JVal.str "x")] 100))
    ∧ parseLogEntry 1 [("type", JVal.str "x"), ("timestamp", JVal.str "garbage")] 100
      = Except.error ()
    ∧ get_timeline_data c7replay = Except.error () :=
  ⟨(C7_amended_timestamp_handling [("type", JVal.str "x")] 1 100 c7replay "garbage").1
      (by decide) (by decide) (by decide),
   (C7_amended_timestamp_handling
      [("type", JVal.str "x"), ("timestamp", JVal.str "garbage")] 1 100 c7replay
      "garbage").2.1 (by decide) (by decide),
   (C7_amended_timestamp_handling [] 1 100 c7replay "garbage").2.2
      (by rw [c7replay_eval]; decide)⟩

/-- C8 (counterexample): on a static one-line file whose record lacks a
`timestamp` key, two independently constructed tailer instances (same
initial state, different construction times, hence different
`datetime.now()` streams) produce different events — the parser stamps
the missing timestamp with each instance's own current time. -/
theorem C8_counterexample_missing_timestamp_nondeterministic :
    (processFile { counter := 0, history := [] } (fun _ => 100) c8file).history.length = 1
    ∧ (processFile { counter := 0, history := [] } (fun _ => 200) c8file).history.length = 1
    ∧ processFile { counter := 0, history := [] } (fun _ => 100) c8file
        ≠ processFile { counter := 0, history := [] } (fun _ => 200) c8file := by
  decide

/-- C8 (amended): provided every decoded record of the file carries a
`timestamp` key, processing is deterministic — two runs from the same
initial state with arbitrary (different) current-time streams produce
identical states, hence identical event sequences (ids, timestamps,
sources, targets, types, messages, metadata, in the same order). -/
theorem C8_amended_determinism_with_timestamps (st : StreamState)
    (lines : List (Option JObj)) (nows1 nows2 : Nat → Int)
    (h : ∀ o ∈ lines,
      (match o with
       | some data => amem data "timestamp"
       | none => true) = true) :
    processFile st nows1 lines = processFile st nows2 lines := by
  induction lines generalizing st with
  | nil => rfl
  | cons o rest ih =>
      have hrest : ∀ o ∈ rest,
          (match o with
           | some data => amem data "timestamp"
           | none => true) = true :=
        fun o ho => h o (List.mem_cons_of_mem _ ho)
      cases o with
      | none => exact ih st hrest
      | some data =>
          have hts : amem data "timestamp" = true := h (some data) (List.mem_cons_self _ _)
          have hpe : parseLogEntry (st.counter + 1) data (nows1 st.counter)
              = parseLogEntry (st.counter + 1) data (nows2 st.counter) :=
            parseLogEntry_now_irrelevant _ _ _ _ hts
          simp only [processFile]
          rw [← hpe]
          cases parseLogEntry (st.counter + 1) data (nows1 st.counter) with
          | error e => rfl
          | ok o' =>
              cases o' with
              | none => exact ih _ hrest
              | some ev => exact ih _ hrest

/-- Witness for `C8_amended_determinism_with_timestamps`: the one-line
file with a timestamp processes identically under two different
current-time streams. -/
theorem C8_amended_witness :
    processFile { counter := 0, history := [] } (fun _ => 100) c8fileTs
      = processFile { counter := 0, history := [] } (fun _ => 200) c8fileTs :=
  C8_amended_determinism_with_timestamps { counter := 0, history := [] } c8fileTs
    (fun _ => 100) (fun _ => 200) (by decide)

end Seneca
